import Mathlib

/-!
Shallow embedding of the mcp-graphql-server core (src/src/utils.ts,
src/src/config.ts = src/unnamed/part_001, src/src/index.ts =
src/unnamed/part_003).

The GraphQL parsing library is an external black box (per the spec's
scope section), so the parser is a parameter `p : String → ParseResult`
producing an abstract document AST; the JSON decoder for the variables
string is likewise a parameter.  The HTTP layer is modelled by splitting
the handler into a pure pre-network phase (which either returns an early
error result, in which case no HTTP request is issued, or the exact
request that would be sent) and a post-network phase applied to the
response; the full handler composes them with an explicit
`http : HttpRequest → HttpOutcome` function.
-/

namespace McpGraphql

/-- Top-level operation type of a GraphQL operation definition. -/
inductive OperationType where
  | query
  | mutation
  | subscription
deriving DecidableEq, Repr

/-- A selection set, encoded as its own list spine: a `Sel` value is a
whole selection list.  `fieldCons name subs rest` is a field node with
sub-selections `subs` followed by the remaining selections `rest`;
`spreadCons` is a fragment spread (no inline sub-selections);
`inlineCons` is an inline fragment. -/
inductive Sel where
  | nil : Sel
  | fieldCons (name : String) (subs : Sel) (rest : Sel) : Sel
  | spreadCons (name : String) (rest : Sel) : Sel
  | inlineCons (subs : Sel) (rest : Sel) : Sel
deriving DecidableEq, Repr

/-- A top-level definition of a parsed GraphQL document. -/
inductive Definition where
  | operation (op : OperationType) (selections : Sel)
  | fragmentDef (name : String) (selections : Sel)
deriving DecidableEq, Repr

/-- A parsed GraphQL document: its list of top-level definitions. -/
abbrev Document := List Definition

/-- Outcome of the black-box `parse` from the graphql library: either a
document or a thrown `GraphQLError`, represented by its message. -/
inductive ParseResult where
  | ok (doc : Document)
  | err (msg : String)
deriving DecidableEq, Repr

/-- Values thrown in the JS code, as far as `sanitizeErrorMessage`
distinguishes them: an `AxiosError` with a response, with only a
request, or with neither (still an `Error`, so `instanceof Error`
holds); a plain `Error`; or a non-`Error` value given by its
`String(...)` form. -/
inductive JsError where
  | axiosResponse (status : Nat) (message : String)
  | axiosRequestOnly (message : String)
  | axiosBare (message : String)
  | jsError (message : String)
  | nonErrorValue (stringForm : String)
deriving DecidableEq, Repr

/-- utils.ts `sanitizeErrorMessage`: AxiosError with a response ↦
`"Server responded with status <code>: <message>"`; AxiosError with a
request but no response ↦ `"No response received: <message>"`; any other
`Error` ↦ its own message; a non-`Error` value ↦ its string form. -/
def sanitizeErrorMessage : JsError → String
  | .axiosResponse status message =>
      "Server responded with status " ++ toString status ++ ": " ++ message
  | .axiosRequestOnly message => "No response received: " ++ message
  | .axiosBare message => message
  | .jsError message => message
  | .nonErrorValue stringForm => stringForm

/-- The JavaScript `\s` character class (also the set removed by
`String.prototype.trim`): ASCII whitespace, NBSP, the Unicode space
separators, line/paragraph separators and the BOM. -/
def isWs (c : Char) : Bool :=
  c = ' ' || c = '\t' || c = '\n' || c = '\u000D' || c = '\u000B' || c = '\u000C' ||
  c = '\u00A0' || c = '\u1680' ||
  ('\u2000' ≤ c && c ≤ '\u200A') ||
  c = '\u2028' || c = '\u2029' || c = '\u202F' || c = '\u205F' ||
  c = '\u3000' || c = '\uFEFF'

/-- `query.replace(/\s+/g, " ")` on the character list: every maximal
run of whitespace becomes a single space. -/
def collapseWs : List Char → List Char
  | [] => []
  | [c] => if isWs c then [' '] else [c]
  | c1 :: c2 :: cs =>
      if isWs c1 && isWs c2 then collapseWs (c2 :: cs)
      else (if isWs c1 then ' ' else c1) :: collapseWs (c2 :: cs)

/-- Drop a trailing whitespace run (the right half of `trim()`). -/
def dropTrailWs : List Char → List Char
  | [] => []
  | c :: cs =>
      match dropTrailWs cs with
      | [] => if isWs c then [] else [c]
      | r => c :: r

/-- `String.prototype.trim`: drop leading and trailing whitespace. -/
def trimWs (l : List Char) : List Char :=
  dropTrailWs (l.dropWhile isWs)

/-- utils.ts `formatGraphQLQuery`: `query.replace(/\s+/g, " ").trim()`. -/
def formatGraphQLQuery (query : String) : String :=
  ⟨trimWs (collapseWs query.data)⟩

/-- utils.ts `isMutation` inner loop: true iff some top-level definition
is an operation definition of mutation type. -/
def isMutationDoc (doc : Document) : Bool :=
  doc.any fun defn =>
    match defn with
    | .operation .mutation _ => true
    | _ => false

/-- utils.ts `isMutation`: parse, scan top-level definitions; an
unparseable query yields `false` (the `catch` branch). -/
def isMutation (p : String → ParseResult) (query : String) : Bool :=
  match p query with
  | .ok doc => isMutationDoc doc
  | .err _ => false

/-- The `visit(document, { Field(_) { complexity += 1 } })` traversal of
utils.ts `calculateQueryComplexity`, over one selection list, carrying
the mutable counter as an accumulator. -/
def visitSel (acc : Nat) : Sel → Nat
  | .nil => acc
  | .fieldCons _ subs rest => visitSel (visitSel (acc + 1) subs) rest
  | .spreadCons _ rest => visitSel acc rest
  | .inlineCons subs rest => visitSel (visitSel acc subs) rest

/-- The same visitor over the whole document (it also enters fragment
definitions' selection sets). -/
def visitDoc (acc : Nat) : Document → Nat
  | [] => acc
  | .operation _ sels :: rest => visitDoc (visitSel acc sels) rest
  | .fragmentDef _ sels :: rest => visitDoc (visitSel acc sels) rest

/-- utils.ts `calculateQueryComplexity`: count of field nodes of the
parsed document; on parse failure the sentinel `maxComplexity + 1`. -/
def calculateQueryComplexity (p : String → ParseResult) (maxComplexity : Nat)
    (query : String) : Nat :=
  match p query with
  | .ok doc => visitDoc 0 doc
  | .err _ => maxComplexity + 1

/-- Specification-side view of complexity: the list of the names of all
field-selection nodes of one selection list, in document order —
nested, aliased and fragment-contained fields all appear flatly. -/
def selFields : Sel → List String
  | .nil => []
  | .fieldCons n subs rest => n :: (selFields subs ++ selFields rest)
  | .spreadCons _ rest => selFields rest
  | .inlineCons subs rest => selFields subs ++ selFields rest

/-- Specification-side view: all field-selection nodes of a document. -/
def docFields : Document → List String
  | [] => []
  | .operation _ sels :: rest => selFields sels ++ docFields rest
  | .fragmentDef _ sels :: rest => selFields sels ++ docFields rest

/-- Lookup in a string-keyed JS object modelled as an association list
(keys are unique in real JS objects; lookup takes the first match). -/
def hLookup (k : String) : List (String × String) → Option String
  | [] => none
  | p :: ps => if p.1 = k then some p.2 else hLookup k ps

/-- One key-value assignment of a JS object spread: update the existing
entry in place, else append at the end (insertion order preserved). -/
def objSet : List (String × String) → String → String → List (String × String)
  | [], k, v => [(k, v)]
  | p :: ps, k, v => if p.1 = k then (k, v) :: objSet ps k v else p :: objSet ps k v

/-- `{...m, ...n}`: assign every entry of `n` over `m`, left to right. -/
def objSpread (m n : List (String × String)) : List (String × String) :=
  n.foldl (fun acc p => objSet acc p.1 p.2) m

/-- The literal header entries of the axios call in utils.ts
`executeGraphQLQuery`, written before the two spreads. -/
def baseHeaders : List (String × String) :=
  [("Content-Type", "application/json"), ("Accept", "application/json")]

/-- The header object of the axios call: `{"Content-Type": ...,
Accept: ..., ...DEFAULT_HEADERS, ...headers}` — mandatory entries first,
then the configured defaults, then the request headers. -/
def mergedHeaders (defaults requestHeaders : List (String × String)) :
    List (String × String) :=
  objSpread (objSpread baseHeaders defaults) requestHeaders

/-- The resolved process-wide configuration consumed by the handlers
(`config.endpoint`, `config.maxQueryComplexity`, `config.timeout`,
`config.headers`). -/
structure Config where
  endpoint : String
  maxQueryComplexity : Nat
  timeout : Nat
  headers : List (String × String)
deriving DecidableEq, Repr

/-- The HTTP POST that `executeGraphQLQuery` hands to axios: endpoint,
JSON body `{query, variables}`, merged headers, timeout.  `α` is the
type of decoded variable objects (JSON values are a black box). -/
structure HttpRequest (α : Type) where
  endpoint : String
  query : String
  vars : Option α
  headers : List (String × String)
  timeout : Nat
deriving DecidableEq, Repr

/-- The body of a GraphQL HTTP response as the handler reads it:
`errors` is the optional errors array projected to its messages
(`response.data.errors`, absent/null ↦ `none`), `dataText` is
`JSON.stringify(response.data.data, null, 2)` — the serializer is a
black box, so the field holds the already-rendered text. -/
structure GraphQLResponseBody where
  errors : Option (List String)
  dataText : String
deriving DecidableEq, Repr

/-- Outcome of the awaited axios call: a resolved response or a thrown
error. -/
inductive HttpOutcome where
  | success (body : GraphQLResponseBody)
  | failure (e : JsError)
deriving DecidableEq, Repr

/-- utils.ts `executeGraphQLQuery`, restricted to the request it
constructs (the variables string decode is done by the handler before
the call on this path, so `variables` is already decoded or absent). -/
def executeRequest {α : Type} (cfg : Config) (endpoint query : String)
    (vars : Option α) (headers : List (String × String))
    (timeout : Nat) : HttpRequest α :=
  { endpoint := endpoint, query := query, vars := vars,
    headers := mergedHeaders cfg.headers headers, timeout := timeout }

/-- The `variables` argument of the `graphql_query` tool: absent, an
already-decoded object, or a JSON-encoded string. -/
inductive VarsArg (α : Type) where
  | absent
  | obj (o : α)
  | str (s : String)

/-- A tool call result: the texts of the `content` items (all items have
`type: "text"`) and the error flag (absent on success ↦ `false`). -/
structure ToolResult where
  content : List String
  isError : Bool
deriving DecidableEq, Repr

/-- The literal mutation-gate message of index.ts. -/
def mutationNotAllowedMsg : String :=
  "Mutation operations are not allowed unless explicitly enabled with allowMutations=true"

/-- The literal complexity-gate message template of index.ts. -/
def complexityMsg (n maxAllowed : Nat) : String :=
  "Query complexity (" ++ toString n ++ ") exceeds maximum allowed (" ++
    toString maxAllowed ++ ")"

/-- Result of the pre-network phase of `handleGraphQLQuery`: an error
result returned before any HTTP request, or the request to be sent. -/
inductive PrePhase (α : Type) where
  | earlyError (msg : String)
  | send (req : HttpRequest α)
deriving DecidableEq, Repr

/-- index.ts `handleGraphQLQuery`, steps before the network call:
syntax check (a parse throw lands in the handler's catch, which wraps
the sanitized message), mutation gate, complexity gate, variables
decode; then the request that `executeGraphQLQuery` would send.
Optional tool arguments carry the TS parameter defaults. -/
def handlePre {α : Type} (p : String → ParseResult)
    (jparse : String → Except String α) (cfg : Config) (query : String)
    (vars : VarsArg α) (endpoint : Option String)
    (headers : Option (List (String × String))) (timeout : Option Nat)
    (allowMutations : Option Bool) : PrePhase α :=
  let ep := endpoint.getD cfg.endpoint
  let hs := headers.getD []
  let tmo := timeout.getD cfg.timeout
  let allow := allowMutations.getD false
  match p query with
  | .err m =>
      .earlyError ("Error executing GraphQL query: " ++
        sanitizeErrorMessage (.jsError m))
  | .ok _ =>
      if !allow && isMutation p query then
        .earlyError mutationNotAllowedMsg
      else
        let queryComplexity := calculateQueryComplexity p cfg.maxQueryComplexity query
        if queryComplexity > cfg.maxQueryComplexity then
          .earlyError (complexityMsg queryComplexity cfg.maxQueryComplexity)
        else
          match vars with
          | .str s =>
              match jparse s with
              | .error m => .earlyError ("Failed to parse variables as JSON: " ++ m)
              | .ok v => .send (executeRequest cfg ep query (some v) hs tmo)
          | .obj v => .send (executeRequest cfg ep query (some v) hs tmo)
          | .absent => .send (executeRequest cfg ep query none hs tmo)

/-- Model of `JSON.stringify(headers, null, 2)` for the default-headers
echo line (black-box serializer; rendered shape is irrelevant to every
claim). -/
def headersJson (hs : List (String × String)) : String :=
  "\x7b\n" ++
    String.intercalate ",\n"
      (hs.map fun p => "  \x22" ++ p.1 ++ "\x22: \x22" ++ p.2 ++ "\x22") ++
    "\n\x7d"

/-- index.ts `handleGraphQLQuery`, steps after a resolved response:
GraphQL-level error check, then the success content sequence. -/
def handlePost (cfg : Config) (query endpoint : String) (elapsed : Nat)
    (body : GraphQLResponseBody) : ToolResult :=
  match body.errors with
  | some errs =>
      { content := ["GraphQL server returned errors: " ++ String.intercalate ", " errs],
        isError := true }
  | none =>
      { content :=
          ["Query executed successfully in " ++ toString elapsed ++ "ms at " ++ endpoint]
          ++ (if cfg.headers.length > 0 then
                ["Using default headers: " ++ headersJson cfg.headers]
              else [])
          ++ ["\nQuery:\n```graphql\n" ++ formatGraphQLQuery query ++ "\n```",
              "\nResult:\n```json\n" ++ body.dataText ++ "\n```"],
        isError := false }

/-- index.ts `handleGraphQLQuery`, whole body: pre-network phase, the
awaited HTTP call, post phase; a thrown HTTP error lands in the
handler's catch and is reported sanitized.  `elapsed` is the measured
wall-clock time (external). -/
def handleGraphQLQuery {α : Type} (p : String → ParseResult)
    (jparse : String → Except String α) (cfg : Config) (query : String)
    (vars : VarsArg α) (endpoint : Option String)
    (headers : Option (List (String × String))) (timeout : Option Nat)
    (allowMutations : Option Bool) (http : HttpRequest α → HttpOutcome)
    (elapsed : Nat) : ToolResult :=
  match handlePre p jparse cfg query vars endpoint headers timeout allowMutations with
  | .earlyError msg => { content := [msg], isError := true }
  | .send req =>
      match http req with
      | .failure e =>
          { content := ["Error executing GraphQL query: " ++ sanitizeErrorMessage e],
            isError := true }
      | .success body =>
          handlePost cfg query (endpoint.getD cfg.endpoint) elapsed body

/-- A JS number as needed by the config resolver: `undefined`, `NaN`,
or an integer value. -/
inductive JsNum where
  | undef
  | nan
  | num (n : Int)
deriving DecidableEq, Repr

/-- JS nullish coalescing `a ?? b`: `b` only when `a` is
undefined/null; in particular `NaN ?? b = NaN`. -/
def nullishOr (a b : JsNum) : JsNum :=
  match a with
  | .undef => b
  | x => x

/-- `Number(process.env.X)`: `Number(undefined) = NaN` when the variable
is absent; a present string goes through the black-box numeric
conversion `toNum` (which never yields `undef`). -/
def jsNumberOfEnv (toNum : String → JsNum) : Option String → JsNum
  | none => .nan
  | some s => toNum s

/-- config.ts `--timeout` resolution: the flag value if given, else the
yargs default `Number(process.env.TIMEOUT) ?? 30000`. -/
def configTimeout (toNum : String → JsNum) (flag : Option Int)
    (env : Option String) : JsNum :=
  match flag with
  | some t => .num t
  | none => nullishOr (jsNumberOfEnv toNum env) (.num 30000)

/-- config.ts `--maxComplexity` resolution: the flag value if given,
else the yargs default `Number(process.env.MAX_DEPTH) ?? 100`. -/
def configMaxComplexity (toNum : String → JsNum) (flag : Option Int)
    (env : Option String) : JsNum :=
  match flag with
  | some m => .num m
  | none => nullishOr (jsNumberOfEnv toNum env) (.num 100)

/-- config.ts `--endpoint` resolution: the flag value if given, else
`process.env.ENDPOINT ?? "http://localhost:4000/graphql"`. -/
def configEndpoint (flag : Option String) (env : Option String) : String :=
  flag.getD (env.getD "http://localhost:4000/graphql")

/-- config.ts `Config` constructor headers: start from `\x7b\x7d`; only a
present truthy (non-empty) `--headers` flag that parses as a JSON object
adds entries; a parse failure keeps the empty map. -/
def configHeaders (jsonParseObj : String → Option (List (String × String)))
    (flag : Option String) : List (String × String) :=
  match flag with
  | none => []
  | some s => if s = "" then [] else (jsonParseObj s).getD []

/-! ### Lemmas about the JS-object header merge -/

theorem hLookup_objSet_self (m : List (String × String)) (k v : String) :
    hLookup k (objSet m k v) = some v := by
  induction m with
  | nil => simp [objSet, hLookup]
  | cons p ps ih =>
      by_cases h : p.1 = k
      · simp [objSet, h, hLookup]
      · simp [objSet, h, hLookup, ih]

theorem hLookup_objSet_ne (m : List (String × String)) (k v k' : String)
    (h : k' ≠ k) : hLookup k' (objSet m k v) = hLookup k' m := by
  have hk : ¬(k = k') := fun hh => h hh.symm
  induction m with
  | nil => simp [objSet, hLookup, hk]
  | cons p ps ih =>
      by_cases hp : p.1 = k
      · simp [objSet, hp, hLookup, ih, hk]
      · simp [objSet, hp, hLookup, ih]

theorem objSpread_cons (m : List (String × String)) (q : String × String)
    (n : List (String × String)) :
    objSpread m (q :: n) = objSpread (objSet m q.1 q.2) n := rfl

theorem hLookup_objSpread_not_mem (k : String) (n : List (String × String)) :
    ∀ m, (∀ p ∈ n, p.1 ≠ k) → hLookup k (objSpread m n) = hLookup k m := by
  induction n with
  | nil => intro m _; rfl
  | cons q n ih =>
      intro m h
      rw [objSpread_cons, ih _ fun p hp => h p (List.mem_cons_of_mem _ hp)]
      exact hLookup_objSet_ne _ _ _ _ (Ne.symm (h q (List.mem_cons_self _ _)))

theorem hLookup_objSpread_mem (k v : String) (n : List (String × String)) :
    ∀ m, (n.map Prod.fst).Nodup → (k, v) ∈ n →
      hLookup k (objSpread m n) = some v := by
  induction n with
  | nil => intro m _ hmem; cases hmem
  | cons q n ih =>
      intro m hnd hmem
      rw [List.map_cons, List.nodup_cons] at hnd
      rw [objSpread_cons]
      rcases List.mem_cons.mp hmem with heq | hmem'
      · subst heq
        have hnotin : ∀ p ∈ n, p.1 ≠ k := by
          intro p hp hpk
          have hmm : p.1 ∈ n.map Prod.fst := List.mem_map_of_mem Prod.fst hp
          rw [hpk] at hmm
          exact hnd.1 hmm
        rw [hLookup_objSpread_not_mem k n _ hnotin]
        exact hLookup_objSet_self m k v
      · exact ih _ hnd.2 hmem'

theorem forall_ne_of_hLookup_none (k : String) (m : List (String × String))
    (h : hLookup k m = none) : ∀ p ∈ m, p.1 ≠ k := by
  induction m with
  | nil => intro p hp; cases hp
  | cons q ps ih =>
      intro p hp
      by_cases hq : q.1 = k
      · simp [hLookup, hq] at h
      · rcases List.mem_cons.mp hp with rfl | hp'
        · exact hq
        · exact ih (by simpa [hLookup, hq] using h) p hp'

/-- **C3**: `executeGraphQLQuery` builds its header object as
`{Content-Type: application/json, Accept: application/json}` spread with
the configured default headers and then the request headers, later sets
overriding earlier ones; in particular any key present in the request
headers is sent with the request-supplied value, even when the
configured defaults also carry it. -/
theorem C3_header_merge_request_wins {α : Type} (cfg : Config)
    (ep q : String) (v : Option α) (requestHeaders : List (String × String))
    (tmo : Nat) (k val : String)
    (hnd : (requestHeaders.map Prod.fst).Nodup)
    (hmem : (k, val) ∈ requestHeaders) :
    (executeRequest cfg ep q v requestHeaders tmo).headers
        = objSpread (objSpread baseHeaders cfg.headers) requestHeaders ∧
    hLookup k (executeRequest cfg ep q v requestHeaders tmo).headers = some val := by
  refine ⟨rfl, ?_⟩
  exact hLookup_objSpread_mem k val requestHeaders _ hnd hmem

theorem C3_header_merge_request_wins_witness :
    hLookup "Authorization"
        (executeRequest (α := Unit)
          { endpoint := "http://localhost:4000/graphql",
            maxQueryComplexity := 100, timeout := 30000,
            headers := [("Authorization", "Bearer default")] }
          "http://localhost:4000/graphql" "\x7b __typename \x7d" none
          [("Authorization", "Bearer per-request")] 30000).headers
      = some "Bearer per-request" :=
  (C3_header_merge_request_wins _ _ _ _ _ _ _ _
    (by decide) (by decide)).2

/-- **C4 counterexample**: with configured default headers carrying
`Content-Type: text/plain` and no request headers, the header actually
sent is `text/plain`, not `application/json` — the protocol-mandatory
entries are written first in the object literal and are therefore
overridden by colliding default (and request) headers, not the other
way round. -/
theorem C4_counterexample :
    hLookup "Content-Type"
        (executeRequest (α := Unit)
          { endpoint := "http://localhost:4000/graphql",
            maxQueryComplexity := 100, timeout := 30000,
            headers := [("Content-Type", "text/plain")] }
          "http://localhost:4000/graphql" "\x7b __typename \x7d" none [] 30000).headers
      = some "text/plain" ∧
    some "text/plain" ≠ some "application/json" := by
  constructor
  · rfl
  · decide

/-- **C4 (amended)**: `Content-Type` and `Accept` are initialized to
`application/json` and are sent with that value whenever neither the
configured default headers nor the request headers carry the key; a
colliding entry in either map overrides them (request over default over
mandatory), the opposite of mandatory-over-both. -/
theorem C4_mandatory_header_defaults {α : Type} (cfg : Config)
    (ep q : String) (v : Option α) (requestHeaders : List (String × String))
    (tmo : Nat) (k : String) (hk : k = "Content-Type" ∨ k = "Accept") :
    (hLookup k requestHeaders = none → hLookup k cfg.headers = none →
      hLookup k (executeRequest cfg ep q v requestHeaders tmo).headers
        = some "application/json") ∧
    ((cfg.headers.map Prod.fst).Nodup → hLookup k requestHeaders = none →
      ∀ w, (k, w) ∈ cfg.headers →
        hLookup k (executeRequest cfg ep q v requestHeaders tmo).headers
          = some w) := by
  constructor
  · intro hR hD
    show hLookup k (mergedHeaders cfg.headers requestHeaders) = some "application/json"
    unfold mergedHeaders
    rw [hLookup_objSpread_not_mem k requestHeaders _ (forall_ne_of_hLookup_none k _ hR),
        hLookup_objSpread_not_mem k cfg.headers _ (forall_ne_of_hLookup_none k _ hD)]
    rcases hk with rfl | rfl <;> rfl
  · intro hnd hR w hw
    show hLookup k (mergedHeaders cfg.headers requestHeaders) = some w
    unfold mergedHeaders
    rw [hLookup_objSpread_not_mem k requestHeaders _ (forall_ne_of_hLookup_none k _ hR)]
    exact hLookup_objSpread_mem k w cfg.headers _ hnd hw

theorem C4_mandatory_header_defaults_witness :
    hLookup "Content-Type"
        (executeRequest (α := Unit)
          { endpoint := "http://localhost:4000/graphql",
            maxQueryComplexity := 100, timeout := 30000, headers := [] }
          "http://localhost:4000/graphql" "\x7b __typename \x7d" none [] 30000).headers
      = some "application/json" :=
  (C4_mandatory_header_defaults _ _ _ _ _ _ _ (Or.inl rfl)).1 rfl rfl

/-! ### The field-counting visitor computes the flat field-node count -/

theorem visitSel_eq (s : Sel) : ∀ acc, visitSel acc s = acc + (selFields s).length := by
  induction s with
  | nil => intro acc; simp [visitSel, selFields]
  | fieldCons n subs rest ihs ihr =>
      intro acc
      simp only [visitSel, selFields, ihs, ihr, List.length_cons, List.length_append]
      omega
  | spreadCons n rest ihr =>
      intro acc
      simp only [visitSel, selFields, ihr]
  | inlineCons subs rest ihs ihr =>
      intro acc
      simp only [visitSel, selFields, ihs, ihr, List.length_append]
      omega

theorem visitDoc_eq (doc : Document) :
    ∀ acc, visitDoc acc doc = acc + (docFields doc).length := by
  induction doc with
  | nil => intro acc; simp [visitDoc, docFields]
  | cons d rest ih =>
      intro acc
      cases d with
      | operation op sels =>
          simp only [visitDoc, docFields, ih, visitSel_eq, List.length_append]
          omega
      | fragmentDef n sels =>
          simp only [visitDoc, docFields, ih, visitSel_eq, List.length_append]
          omega

/-- **C7**: for a parseable query, `calculateQueryComplexity` returns the
number of field-selection nodes of the parsed document — one point per
field node, nested, aliased and fragment-contained fields counted flatly
with no depth or argument weighting (`docFields` lists exactly those
nodes); for an unparseable query it returns `maxComplexity + 1`. -/
theorem C7_complexity_is_field_count (p : String → ParseResult)
    (maxComplexity : Nat) (q : String) :
    calculateQueryComplexity p maxComplexity q
      = match p q with
        | .ok doc => (docFields doc).length
        | .err _ => maxComplexity + 1 := by
  unfold calculateQueryComplexity
  cases hp : p q with
  | ok doc => simp [visitDoc_eq]
  | err m => rfl

/-- **C9**: `sanitizeErrorMessage` is total (it never throws) and maps
each failure shape as specified: an HTTP-client error carrying a
response to `"Server responded with status <code>: <message>"`, one
carrying a request but no response to `"No response received:
<message>"`, any other `Error` to its own message, and a non-`Error`
value to its string form. -/
theorem C9_sanitize_error_message :
    (∀ status message, sanitizeErrorMessage (.axiosResponse status message)
        = "Server responded with status " ++ toString status ++ ": " ++ message) ∧
    (∀ message, sanitizeErrorMessage (.axiosRequestOnly message)
        = "No response received: " ++ message) ∧
    (∀ message, sanitizeErrorMessage (.axiosBare message) = message) ∧
    (∀ message, sanitizeErrorMessage (.jsError message) = message) ∧
    (∀ s, sanitizeErrorMessage (.nonErrorValue s) = s) :=
  ⟨fun _ _ => rfl, fun _ => rfl, fun _ => rfl, fun _ => rfl, fun _ => rfl⟩

/-- **C2** (evaluation at the failing input): with no `--timeout` flag
and `TIMEOUT` unset, the yargs default is `Number(undefined) ?? 30000 =
NaN ?? 30000 = NaN`, not `30000` — and likewise `NaN`, not `100`, for
`--maxComplexity`/`MAX_DEPTH` — because `Number(undefined)` is `NaN`,
which is not nullish, so the `?? fallback` never fires.  The endpoint
and headers defaults do behave as claimed. -/
theorem C2_default_resolution :
    (∀ toNum, configTimeout toNum none none = .nan) ∧
    (∀ toNum, configMaxComplexity toNum none none = .nan) ∧
    JsNum.nan ≠ JsNum.num 30000 ∧
    JsNum.nan ≠ JsNum.num 100 ∧
    configEndpoint none none = "http://localhost:4000/graphql" ∧
    (∀ jp, configHeaders jp none = []) := by
  refine ⟨fun _ => rfl, fun _ => rfl, ?_, ?_, rfl, fun _ => rfl⟩
  · decide
  · decide

/-! ### Handler theorems -/

/-- **C1**: for every query whose parsed document contains a top-level
mutation operation, with `allowMutations` absent or false the handler
stops in the pre-network phase (no HTTP request is issued) with exactly
the mutation-gate message, and the tool result is that single error
text with `isError = true`. -/
theorem C1_mutation_gate {α : Type} (p : String → ParseResult)
    (jparse : String → Except String α) (cfg : Config) (q : String)
    (vars : VarsArg α) (ep : Option String)
    (hs : Option (List (String × String))) (tmo : Option Nat)
    (allow : Option Bool) (doc : Document)
    (hp : p q = .ok doc) (hmut : isMutationDoc doc = true)
    (hallow : allow = none ∨ allow = some false) :
    handlePre p jparse cfg q vars ep hs tmo allow
        = .earlyError "Mutation operations are not allowed unless explicitly enabled with allowMutations=true" ∧
    ∀ http elapsed,
      handleGraphQLQuery p jparse cfg q vars ep hs tmo allow http elapsed
        = { content := ["Mutation operations are not allowed unless explicitly enabled with allowMutations=true"],
            isError := true } := by
  have hpre : handlePre p jparse cfg q vars ep hs tmo allow
      = .earlyError mutationNotAllowedMsg := by
    rcases hallow with rfl | rfl <;> simp [handlePre, hp, isMutation, hmut]
  refine ⟨hpre, fun http elapsed => ?_⟩
  simp [handleGraphQLQuery, hpre, mutationNotAllowedMsg]

theorem C1_mutation_gate_witness :
    handleGraphQLQuery (α := Unit)
        (fun _ => .ok [.operation .mutation (.fieldCons "x" .nil .nil)])
        (fun _ => .error "unused")
        { endpoint := "http://localhost:4000/graphql", maxQueryComplexity := 100,
          timeout := 30000, headers := [] }
        "mutation \x7b x \x7d" .absent none none none none
        (fun _ => .failure (.jsError "unreachable")) 0
      = { content := ["Mutation operations are not allowed unless explicitly enabled with allowMutations=true"],
          isError := true } :=
  (C1_mutation_gate
      (fun _ => .ok [.operation .mutation (.fieldCons "x" .nil .nil)])
      (fun _ => (.error "unused" : Except String Unit))
      { endpoint := "http://localhost:4000/graphql", maxQueryComplexity := 100,
        timeout := 30000, headers := [] }
      "mutation \x7b x \x7d" .absent none none none none
      [.operation .mutation (.fieldCons "x" .nil .nil)]
      rfl rfl (Or.inl rfl)).2
    (fun _ => .failure (.jsError "unreachable")) 0

/-- **C5**: for every syntactically invalid query the parse throw is the
first step, so the handler stops in the pre-network phase (no network
call) and the catch at the handler boundary converts the failure — the
whole handler is a total function, so no failure propagates — into the
error result `"Error executing GraphQL query: "` followed by the
sanitized parser diagnostic. -/
theorem C5_syntax_error {α : Type} (p : String → ParseResult)
    (jparse : String → Except String α) (cfg : Config) (q : String)
    (vars : VarsArg α) (ep : Option String)
    (hs : Option (List (String × String))) (tmo : Option Nat)
    (allow : Option Bool) (e : String) (hp : p q = .err e) :
    handlePre p jparse cfg q vars ep hs tmo allow
        = .earlyError ("Error executing GraphQL query: " ++ sanitizeErrorMessage (.jsError e)) ∧
    ∀ http elapsed,
      handleGraphQLQuery p jparse cfg q vars ep hs tmo allow http elapsed
        = { content := ["Error executing GraphQL query: " ++ e], isError := true } := by
  have hpre : handlePre p jparse cfg q vars ep hs tmo allow
      = .earlyError ("Error executing GraphQL query: " ++ sanitizeErrorMessage (.jsError e)) := by
    simp [handlePre, hp]
  refine ⟨hpre, fun http elapsed => ?_⟩
  simp [handleGraphQLQuery, hpre, sanitizeErrorMessage]

theorem C5_syntax_error_witness :
    handleGraphQLQuery (α := Unit)
        (fun _ => .err "Syntax Error: Unexpected <EOF>.")
        (fun _ => .error "unused")
        { endpoint := "http://localhost:4000/graphql", maxQueryComplexity := 100,
          timeout := 30000, headers := [] }
        "\x7b" .absent none none none none
        (fun _ => .failure (.jsError "unreachable")) 0
      = { content := ["Error executing GraphQL query: Syntax Error: Unexpected <EOF>."],
          isError := true } :=
  (C5_syntax_error
      (fun _ => .err "Syntax Error: Unexpected <EOF>.")
      (fun _ => (.error "unused" : Except String Unit))
      { endpoint := "http://localhost:4000/graphql", maxQueryComplexity := 100,
        timeout := 30000, headers := [] }
      "\x7b" .absent none none none none
      "Syntax Error: Unexpected <EOF>." rfl).2
    (fun _ => .failure (.jsError "unreachable")) 0

/-- **C6 counterexample**: a syntactically valid query whose field count
(2) strictly exceeds the ceiling (1) but which is a mutation with
`allowMutations` absent: the handler returns the mutation-gate message,
not the complexity message the claim promises for every such query —
the mutation gate runs first. -/
theorem C6_counterexample :
    handleGraphQLQuery (α := Unit)
        (fun _ => .ok [.operation .mutation (.fieldCons "a" .nil (.fieldCons "b" .nil .nil))])
        (fun _ => .error "unused")
        { endpoint := "http://localhost:4000/graphql", maxQueryComplexity := 1,
          timeout := 30000, headers := [] }
        "mutation \x7b a b \x7d" .absent none none none none
        (fun _ => .failure (.jsError "unreachable")) 0
      = { content := ["Mutation operations are not allowed unless explicitly enabled with allowMutations=true"],
          isError := true } ∧
    visitDoc 0 [.operation .mutation (.fieldCons "a" .nil (.fieldCons "b" .nil .nil))] = 2 ∧
    2 > 1 ∧
    ("Mutation operations are not allowed unless explicitly enabled with allowMutations=true" : String)
      ≠ "Query complexity (2) exceeds maximum allowed (1)" := by
  refine ⟨rfl, rfl, by decide, by decide⟩

/-- **C6 (amended)**: for every syntactically valid query that passes
the mutation gate (`allowMutations` resolves to true, or the document
has no top-level mutation), if its field count strictly exceeds the
configured ceiling the handler stops in the pre-network phase (no HTTP
request) with exactly `"Query complexity (<n>) exceeds maximum allowed
(<max>)"`; a count less than or equal to the ceiling — in particular one
equal to it — is not rejected by this gate, and the pre-network phase
proceeds to the request. -/
theorem C6_complexity_gate {α : Type} (p : String → ParseResult)
    (jparse : String → Except String α) (cfg : Config) (q : String)
    (vars : VarsArg α) (ep : Option String)
    (hs : Option (List (String × String))) (tmo : Option Nat)
    (allow : Option Bool) (doc : Document)
    (hp : p q = .ok doc)
    (hgate : allow.getD false = true ∨ isMutationDoc doc = false) :
    (visitDoc 0 doc > cfg.maxQueryComplexity →
      handlePre p jparse cfg q vars ep hs tmo allow
          = .earlyError (complexityMsg (visitDoc 0 doc) cfg.maxQueryComplexity) ∧
      ∀ http elapsed,
        handleGraphQLQuery p jparse cfg q vars ep hs tmo allow http elapsed
          = { content := [complexityMsg (visitDoc 0 doc) cfg.maxQueryComplexity],
              isError := true }) ∧
    (visitDoc 0 doc ≤ cfg.maxQueryComplexity →
      handlePre p jparse cfg q .absent ep hs tmo allow
          = .send (executeRequest cfg (ep.getD cfg.endpoint) q none
              (hs.getD []) (tmo.getD cfg.timeout))) := by
  have hmutF : (!allow.getD false && isMutation p q) = false := by
    rcases hgate with h1 | h2
    · simp [h1]
    · simp [isMutation, hp, h2]
  constructor
  · intro hgt
    have hpre : handlePre p jparse cfg q vars ep hs tmo allow
        = .earlyError (complexityMsg (visitDoc 0 doc) cfg.maxQueryComplexity) := by
      simp [handlePre, hp, hmutF, calculateQueryComplexity, hgt]
    refine ⟨hpre, fun http elapsed => ?_⟩
    simp [handleGraphQLQuery, hpre]
  · intro hle
    have hnot : ¬(visitDoc 0 doc > cfg.maxQueryComplexity) := Nat.not_lt.mpr hle
    simp [handlePre, hp, hmutF, calculateQueryComplexity, hnot]

theorem C6_complexity_gate_witness :
    handleGraphQLQuery (α := Unit)
        (fun _ => .ok [.operation .query (.fieldCons "a" .nil (.fieldCons "b" .nil .nil))])
        (fun _ => .error "unused")
        { endpoint := "http://localhost:4000/graphql", maxQueryComplexity := 1,
          timeout := 30000, headers := [] }
        "\x7b a b \x7d" .absent none none none none
        (fun _ => .failure (.jsError "unreachable")) 0
      = { content := ["Query complexity (2) exceeds maximum allowed (1)"], isError := true } ∧
    handlePre (α := Unit)
        (fun _ => .ok [.operation .query (.fieldCons "a" .nil (.fieldCons "b" .nil .nil))])
        (fun _ => .error "unused")
        { endpoint := "http://localhost:4000/graphql", maxQueryComplexity := 2,
          timeout := 30000, headers := [] }
        "\x7b a b \x7d" .absent none none none none
      = .send (executeRequest
          { endpoint := "http://localhost:4000/graphql", maxQueryComplexity := 2,
            timeout := 30000, headers := [] }
          "http://localhost:4000/graphql" "\x7b a b \x7d" none [] 30000) :=
  ⟨((C6_complexity_gate
        (fun _ => .ok [.operation .query (.fieldCons "a" .nil (.fieldCons "b" .nil .nil))])
        (fun _ => (.error "unused" : Except String Unit))
        { endpoint := "http://localhost:4000/graphql", maxQueryComplexity := 1,
          timeout := 30000, headers := [] }
        "\x7b a b \x7d" .absent none none none none
        [.operation .query (.fieldCons "a" .nil (.fieldCons "b" .nil .nil))]
        rfl (Or.inr rfl)).1 (by decide)).2
      (fun _ => .failure (.jsError "unreachable")) 0,
   (C6_complexity_gate
        (fun _ => .ok [.operation .query (.fieldCons "a" .nil (.fieldCons "b" .nil .nil))])
        (fun _ => (.error "unused" : Except String Unit))
        { endpoint := "http://localhost:4000/graphql", maxQueryComplexity := 2,
          timeout := 30000, headers := [] }
        "\x7b a b \x7d" .absent none none none none
        [.operation .query (.fieldCons "a" .nil (.fieldCons "b" .nil .nil))]
        rfl (Or.inr rfl)).2 (by decide)⟩

/-- **C8**: whenever the pre-network phase sends a request and the HTTP
call resolves with a body carrying an `errors` array, the handler
returns `isError = true` with `"GraphQL server returned errors: "`
followed by all error messages joined with `", "`; in particular a
single error `"field X not found"` yields exactly
`"GraphQL server returned errors: field X not found"`. -/
theorem C8_graphql_errors {α : Type} (p : String → ParseResult)
    (jparse : String → Except String α) (cfg : Config) (q : String)
    (vars : VarsArg α) (ep : Option String)
    (hs : Option (List (String × String))) (tmo : Option Nat)
    (allow : Option Bool) (req : HttpRequest α) (msgs : List String)
    (dataText : String) (http : HttpRequest α → HttpOutcome) (elapsed : Nat)
    (hpre : handlePre p jparse cfg q vars ep hs tmo allow = .send req)
    (hhttp : http req = .success { errors := some msgs, dataText := dataText }) :
    handleGraphQLQuery p jparse cfg q vars ep hs tmo allow http elapsed
      = { content := ["GraphQL server returned errors: " ++ String.intercalate ", " msgs],
          isError := true } ∧
    "GraphQL server returned errors: " ++ String.intercalate ", " ["field X not found"]
      = "GraphQL server returned errors: field X not found" := by
  refine ⟨?_, rfl⟩
  simp [handleGraphQLQuery, hpre, hhttp, handlePost]

theorem C8_graphql_errors_witness :
    handleGraphQLQuery (α := Unit)
        (fun _ => .ok [.operation .query (.fieldCons "t" .nil .nil)])
        (fun _ => .error "unused")
        { endpoint := "http://localhost:4000/graphql", maxQueryComplexity := 100,
          timeout := 30000, headers := [] }
        "\x7b t \x7d" .absent none none none none
        (fun _ => .success { errors := some ["field X not found"], dataText := "null" }) 7
      = { content := ["GraphQL server returned errors: field X not found"],
          isError := true } :=
  (C8_graphql_errors
      (fun _ => .ok [.operation .query (.fieldCons "t" .nil .nil)])
      (fun _ => (.error "unused" : Except String Unit))
      { endpoint := "http://localhost:4000/graphql", maxQueryComplexity := 100,
        timeout := 30000, headers := [] }
      "\x7b t \x7d" .absent none none none none
      (executeRequest
        { endpoint := "http://localhost:4000/graphql", maxQueryComplexity := 100,
          timeout := 30000, headers := [] }
        "http://localhost:4000/graphql" "\x7b t \x7d" none [] 30000)
      ["field X not found"] "null"
      (fun _ => .success { errors := some ["field X not found"], dataText := "null" }) 7
      rfl rfl).1

/-! ### Whitespace normalization: invariants of `formatGraphQLQuery` -/

/-- No two consecutive whitespace characters. -/
def noTwoWs : List Char → Bool
  | [] => true
  | [_] => true
  | a :: b :: rest => !(isWs a && isWs b) && noTwoWs (b :: rest)

/-- Every whitespace character is a plain space. -/
def allWsSpace (l : List Char) : Bool :=
  l.all fun c => !isWs c || c = ' '

/-- The first character, if any, is not whitespace. -/
def headNotWs : List Char → Bool
  | [] => true
  | c :: _ => !isWs c

/-- The last character, if any, is not whitespace. -/
def lastNotWs : List Char → Bool
  | [] => true
  | [c] => !isWs c
  | _ :: rest => lastNotWs rest

theorem noTwoWs_cons (a : Char) (X : List Char) :
    noTwoWs (a :: X) = ((!isWs a || headNotWs X) && noTwoWs X) := by
  cases X with
  | nil => simp [noTwoWs, headNotWs]
  | cons b t =>
      simp only [noTwoWs, headNotWs]
      cases isWs a <;> cases isWs b <;> simp

theorem collapseWs_cons_not_ws (c : Char) (cs : List Char) (h : isWs c = false) :
    collapseWs (c :: cs) = c :: collapseWs cs := by
  cases cs with
  | nil => simp [collapseWs, h]
  | cons c2 cs' => simp [collapseWs, h]

theorem headNotWs_collapseWs (c : Char) (cs : List Char) (h : isWs c = false) :
    headNotWs (collapseWs (c :: cs)) = true := by
  rw [collapseWs_cons_not_ws c cs h]
  simp [headNotWs, h]

theorem noTwoWs_collapseWs (l : List Char) : noTwoWs (collapseWs l) = true := by
  induction l using collapseWs.induct with
  | case1 => rfl
  | case2 c hc => simp [collapseWs, hc, noTwoWs]
  | case3 c hc => simp [collapseWs, hc, noTwoWs]
  | case4 c1 c2 cs hws ih => simpa [collapseWs, hws] using ih
  | case5 c1 c2 cs hws ih =>
      simp only [collapseWs]
      rw [if_neg hws]
      cases h1 : isWs c1 with
      | false => simp [h1, noTwoWs_cons, ih]
      | true =>
          have h2 : isWs c2 = false := by
            cases h2 : isWs c2
            · rfl
            · exact absurd (by rw [h1, h2]; rfl) hws
          simp [h1, noTwoWs_cons, ih, headNotWs_collapseWs c2 cs h2]

theorem allWsSpace_collapseWs (l : List Char) : allWsSpace (collapseWs l) = true := by
  induction l using collapseWs.induct with
  | case1 => rfl
  | case2 c hc => simp [collapseWs, hc, allWsSpace]
  | case3 c hc => simp [collapseWs, hc, allWsSpace]
  | case4 c1 c2 cs hws ih => simpa [collapseWs, hws] using ih
  | case5 c1 c2 cs hws ih =>
      simp only [collapseWs]
      rw [if_neg hws]
      cases h1 : isWs c1 with
      | false => simpa [h1, allWsSpace, List.all_cons] using ih
      | true => simpa [h1, allWsSpace, List.all_cons] using ih

theorem noTwoWs_tail (a : Char) (X : List Char) (h : noTwoWs (a :: X) = true) :
    noTwoWs X = true := by
  rw [noTwoWs_cons, Bool.and_eq_true] at h
  exact h.2

theorem collapseWs_fixed (l : List Char) (h1 : noTwoWs l = true)
    (h2 : allWsSpace l = true) : collapseWs l = l := by
  induction l using collapseWs.induct with
  | case1 => rfl
  | case2 c hc =>
      have hsp : c = ' ' := by
        simp [allWsSpace, List.all_cons, hc] at h2
        exact h2
      simp [collapseWs, hc, hsp]
  | case3 c hc => simp [collapseWs, hc]
  | case4 c1 c2 cs hws ih =>
      exfalso
      simp only [noTwoWs, hws, Bool.not_true, Bool.false_and] at h1
      cases h1
  | case5 c1 c2 cs hws ih =>
      simp only [collapseWs]
      rw [if_neg hws]
      have htail1 : noTwoWs (c2 :: cs) = true := noTwoWs_tail c1 _ h1
      have htail2 : allWsSpace (c2 :: cs) = true := by
        simp only [allWsSpace, List.all_cons, Bool.and_eq_true] at h2 ⊢
        exact h2.2
      rw [ih htail1 htail2]
      cases hc : isWs c1 with
      | false => simp [hc]
      | true =>
          have hsp : c1 = ' ' := by
            simp only [allWsSpace, List.all_cons, Bool.and_eq_true] at h2
            simpa [hc] using h2.1
          simp [hc, hsp]

theorem headNotWs_dropWhile (l : List Char) :
    headNotWs (l.dropWhile isWs) = true := by
  induction l with
  | nil => rfl
  | cons c cs ih =>
      cases hc : isWs c with
      | true => simpa [List.dropWhile, hc] using ih
      | false => simp [List.dropWhile, hc, headNotWs]

theorem dropWhile_of_headNotWs (l : List Char) (h : headNotWs l = true) :
    l.dropWhile isWs = l := by
  cases l with
  | nil => rfl
  | cons c cs =>
      simp only [headNotWs, Bool.not_eq_true'] at h
      simp [List.dropWhile, h]

theorem noTwoWs_dropWhile (l : List Char) (h : noTwoWs l = true) :
    noTwoWs (l.dropWhile isWs) = true := by
  induction l with
  | nil => rfl
  | cons c cs ih =>
      cases hc : isWs c with
      | true => simpa [List.dropWhile, hc] using ih (noTwoWs_tail c cs h)
      | false => simpa [List.dropWhile, hc] using h

theorem allWsSpace_dropWhile (l : List Char) (h : allWsSpace l = true) :
    allWsSpace (l.dropWhile isWs) = true := by
  induction l with
  | nil => rfl
  | cons c cs ih =>
      simp only [allWsSpace, List.all_cons, Bool.and_eq_true] at h
      cases hc : isWs c with
      | true => simpa [List.dropWhile, hc, allWsSpace] using ih h.2
      | false => simpa [List.dropWhile, hc, allWsSpace, List.all_cons, hc] using h

theorem dropTrailWs_cons_eq (c : Char) (cs : List Char) :
    dropTrailWs (c :: cs)
      = match dropTrailWs cs with
        | [] => if isWs c then [] else [c]
        | r => c :: r := rfl

theorem dropTrailWs_cons_of_cons (c : Char) (cs : List Char) (d : Char)
    (t : List Char) (hr : dropTrailWs cs = d :: t) :
    dropTrailWs (c :: cs) = c :: d :: t := by
  rw [dropTrailWs_cons_eq, hr]

theorem dropTrailWs_cons_of_nil (c : Char) (cs : List Char)
    (hr : dropTrailWs cs = []) :
    dropTrailWs (c :: cs) = if isWs c then [] else [c] := by
  rw [dropTrailWs_cons_eq, hr]

theorem dropTrailWs_shape (c : Char) (cs : List Char) :
    dropTrailWs (c :: cs) = [] ∨ ∃ t, dropTrailWs (c :: cs) = c :: t := by
  cases hr : dropTrailWs cs with
  | nil =>
      cases hc : isWs c with
      | true => left; simp [dropTrailWs, hr, hc]
      | false => right; exact ⟨[], by simp [dropTrailWs, hr, hc]⟩
  | cons d t => right; exact ⟨d :: t, by simp [dropTrailWs, hr]⟩

theorem noTwoWs_dropTrailWs (l : List Char) (h : noTwoWs l = true) :
    noTwoWs (dropTrailWs l) = true := by
  induction l with
  | nil => rfl
  | cons c cs ih =>
      cases hr : dropTrailWs cs with
      | nil =>
          cases hc : isWs c <;> simp [dropTrailWs, hr, hc, noTwoWs]
      | cons d t =>
          have htail : noTwoWs (d :: t) = true := hr ▸ ih (noTwoWs_tail c cs h)
          cases cs with
          | nil => simp [dropTrailWs] at hr
          | cons e cs' =>
              have hd : d = e := by
                rcases dropTrailWs_shape e cs' with hsh | ⟨t', hsh⟩
                · rw [hsh] at hr; cases hr
                · rw [hsh] at hr
                  injection hr with h1 h2
                  exact h1.symm
              rw [dropTrailWs_cons_of_cons c (e :: cs') d t hr, noTwoWs_cons,
                  Bool.and_eq_true]
              refine ⟨?_, htail⟩
              rw [noTwoWs_cons, Bool.and_eq_true] at h
              simpa [headNotWs, hd] using h.1

theorem allWsSpace_dropTrailWs (l : List Char) (h : allWsSpace l = true) :
    allWsSpace (dropTrailWs l) = true := by
  induction l with
  | nil => rfl
  | cons c cs ih =>
      simp only [allWsSpace, List.all_cons, Bool.and_eq_true] at h
      cases hr : dropTrailWs cs with
      | nil =>
          cases hc : isWs c <;>
            simp [dropTrailWs, hr, hc, allWsSpace, List.all_cons, h.1]
      | cons d t =>
          have htail := hr ▸ ih h.2
          simp only [dropTrailWs, hr]
          simpa [allWsSpace, List.all_cons, h.1] using htail

theorem dropTrailWs_idem (l : List Char) :
    dropTrailWs (dropTrailWs l) = dropTrailWs l := by
  induction l with
  | nil => rfl
  | cons c cs ih =>
      cases hr : dropTrailWs cs with
      | nil =>
          cases hc : isWs c with
          | true => simp [dropTrailWs, hr, hc]
          | false => simp [dropTrailWs, hr, hc]
      | cons d t =>
          rw [hr] at ih
          rw [dropTrailWs_cons_of_cons c cs d t hr]
          exact dropTrailWs_cons_of_cons c (d :: t) d t ih

theorem headNotWs_dropTrailWs (l : List Char) (h : headNotWs l = true) :
    headNotWs (dropTrailWs l) = true := by
  cases l with
  | nil => rfl
  | cons c cs =>
      rcases dropTrailWs_shape c cs with hsh | ⟨t, hsh⟩
      · simp [hsh, headNotWs]
      · rw [hsh]; simpa [headNotWs] using h

theorem lastNotWs_dropTrailWs (l : List Char) :
    lastNotWs (dropTrailWs l) = true := by
  induction l with
  | nil => rfl
  | cons c cs ih =>
      cases hr : dropTrailWs cs with
      | nil =>
          cases hc : isWs c <;> simp [dropTrailWs, hr, hc, lastNotWs]
      | cons d t =>
          rw [hr] at ih
          simp only [dropTrailWs, hr]
          simpa [lastNotWs] using ih

/-- **C10**: `formatGraphQLQuery` is idempotent, and its output contains
no two consecutive whitespace characters and no leading or trailing
whitespace. -/
theorem C10_format_idempotent (q : String) :
    formatGraphQLQuery (formatGraphQLQuery q) = formatGraphQLQuery q ∧
    noTwoWs (formatGraphQLQuery q).data = true ∧
    headNotWs (formatGraphQLQuery q).data = true ∧
    lastNotWs (formatGraphQLQuery q).data = true := by
  have hdata : (formatGraphQLQuery q).data = trimWs (collapseWs q.data) := rfl
  set y := collapseWs q.data with hy
  set z := y.dropWhile isWs with hz
  have hx : trimWs y = dropTrailWs z := rfl
  have n1 : noTwoWs y = true := noTwoWs_collapseWs q.data
  have a1 : allWsSpace y = true := allWsSpace_collapseWs q.data
  have n2 : noTwoWs z = true := noTwoWs_dropWhile y n1
  have a2 : allWsSpace z = true := allWsSpace_dropWhile y a1
  have h2 : headNotWs z = true := headNotWs_dropWhile y
  have n3 : noTwoWs (dropTrailWs z) = true := noTwoWs_dropTrailWs z n2
  have a3 : allWsSpace (dropTrailWs z) = true := allWsSpace_dropTrailWs z a2
  have h3 : headNotWs (dropTrailWs z) = true := headNotWs_dropTrailWs z h2
  have l3 : lastNotWs (dropTrailWs z) = true := lastNotWs_dropTrailWs z
  refine ⟨?_, ?_, ?_, ?_⟩
  · show (⟨trimWs (collapseWs (formatGraphQLQuery q).data)⟩ : String)
        = formatGraphQLQuery q
    rw [hdata, hx]
    rw [collapseWs_fixed (dropTrailWs z) n3 a3]
    show (⟨dropTrailWs ((dropTrailWs z).dropWhile isWs)⟩ : String)
        = formatGraphQLQuery q
    rw [dropWhile_of_headNotWs (dropTrailWs z) h3, dropTrailWs_idem z]
    rfl
  · rw [hdata, hx]; exact n3
  · rw [hdata, hx]; exact h3
  · rw [hdata, hx]; exact l3

end McpGraphql
